import Mathlib

/-!
# Shallow embedding of the parsekit format-detection and dispatch core

This file embeds the format-detection and dispatch engine of the
`parsekit` crate (files `src/format_detector.rs` and `src/parser.rs`)
into Lean 4 and proves the specified properties about it.

Byte buffers are modelled as `List Nat` (each element a byte value),
Rust strings as `List Char` (Unicode scalar values), and fallible
operations as `Except ErrorKind (List Char)`.  The external decoding
capabilities (PDF, DOCX, PPTX, XLSX, JSON, XML, OCR), which the
dispatcher merely invokes, are modelled as an explicit record of
functions passed to the dispatcher.
-/

/-- `FileFormat` from `format_detector.rs`: the closed enumeration of
detected file formats. -/
inductive FileFormat where
  | pdf
  | docx
  | xlsx
  | xls
  | pptx
  | png
  | jpeg
  | tiff
  | bmp
  | json
  | xml
  | html
  | text
  | unknown
deriving DecidableEq, Repr

/-- `FileFormat::to_symbol`: the canonical boundary tag of each format.
`Html` deliberately maps to `"xml"` (source comment: "HTML is treated as
XML in Ruby"). -/
def FileFormat.to_symbol : FileFormat → String
  | .pdf => "pdf"
  | .docx => "docx"
  | .xlsx => "xlsx"
  | .xls => "xls"
  | .pptx => "pptx"
  | .png => "png"
  | .jpeg => "jpeg"
  | .tiff => "tiff"
  | .bmp => "bmp"
  | .json => "json"
  | .xml => "xml"
  | .html => "xml"
  | .text => "text"
  | .unknown => "unknown"

/-- Rust `data.starts_with(sig)` on byte slices: `sig` is a prefix of
`data`. -/
def byteStartsWith : List Nat → List Nat → Bool
  | _, [] => true
  | [], _ :: _ => false
  | d :: ds, s :: ss => d == s && byteStartsWith ds ss

/-- Rust `str::starts_with` on character sequences. -/
def strStartsWith : List Char → List Char → Bool
  | _, [] => true
  | [], _ :: _ => false
  | h :: hs, n :: ns => h == n && strStartsWith hs ns

/-- Rust `str::contains(needle)`: some suffix of the haystack starts
with the needle. -/
def strContains : List Char → List Char → Bool
  | [], needle => needle.isEmpty
  | h :: t, needle => strStartsWith (h :: t) needle || strContains t needle

/-- The fragment of Rust `to_lowercase` that can affect comparisons
against the ASCII needles used in the source: ASCII case folding, plus
U+212A KELVIN SIGN, the one non-ASCII character whose simple lowercase
mapping is an ASCII letter.  Every other character either maps to
itself or to a non-ASCII character (or to a multi-character expansion),
none of which can match an ASCII needle. -/
def lowerChar (c : Char) : Char :=
  if 'A' ≤ c ∧ c ≤ 'Z' then Char.ofNat (c.toNat + 32)
  else if c = Char.ofNat 0x212A then 'k'
  else c

/-- Rust `str::to_lowercase` on the ASCII fragment. -/
def lowerStr (s : List Char) : List Char := s.map lowerChar

/-- Is `b` a UTF-8 continuation byte (`0x80..=0xBF`)? -/
def isCont (b : Nat) : Bool := 0x80 ≤ b && b ≤ 0xBF

/-- The Unicode replacement character U+FFFD. -/
def replChar : Char := Char.ofNat 0xFFFD

/-- UTF-8 decoding with U+FFFD substitution of maximal invalid
subparts (the WHATWG algorithm used both by Rust
`String::from_utf8_lossy` and by `encoding_rs::UTF_8`).  Returns the
decoded characters together with a flag recording whether any
malformed sequence was replaced. -/
def utf8Decode : List Nat → List Char × Bool
  | [] => ([], false)
  | b :: rest =>
    if b < 0x80 then
      -- one-byte (ASCII) sequence
      let r := utf8Decode rest
      (Char.ofNat b :: r.1, r.2)
    else if 0xC2 ≤ b ∧ b ≤ 0xDF then
      -- two-byte sequence
      match rest with
      | b1 :: rest2 =>
        if isCont b1 then
          let r := utf8Decode rest2
          (Char.ofNat ((b - 0xC0) * 0x40 + (b1 - 0x80)) :: r.1, r.2)
        else
          let r := utf8Decode (b1 :: rest2)
          (replChar :: r.1, true)
      | [] => ([replChar], true)
    else if 0xE0 ≤ b ∧ b ≤ 0xEF then
      -- three-byte sequence; the first continuation range depends on the lead
      match rest with
      | b1 :: rest2 =>
        if (if b = 0xE0 then 0xA0 ≤ b1 && b1 ≤ 0xBF
            else if b = 0xED then 0x80 ≤ b1 && b1 ≤ 0x9F
            else isCont b1) then
          match rest2 with
          | b2 :: rest3 =>
            if isCont b2 then
              let r := utf8Decode rest3
              (Char.ofNat ((b - 0xE0) * 0x1000 + (b1 - 0x80) * 0x40 + (b2 - 0x80)) :: r.1, r.2)
            else
              let r := utf8Decode (b2 :: rest3)
              (replChar :: r.1, true)
          | [] => ([replChar], true)
        else
          let r := utf8Decode (b1 :: rest2)
          (replChar :: r.1, true)
      | [] => ([replChar], true)
    else if 0xF0 ≤ b ∧ b ≤ 0xF4 then
      -- four-byte sequence; the first continuation range depends on the lead
      match rest with
      | b1 :: rest2 =>
        if (if b = 0xF0 then 0x90 ≤ b1 && b1 ≤ 0xBF
            else if b = 0xF4 then 0x80 ≤ b1 && b1 ≤ 0x8F
            else isCont b1) then
          match rest2 with
          | b2 :: rest3 =>
            if isCont b2 then
              match rest3 with
              | b3 :: rest4 =>
                if isCont b3 then
                  let r := utf8Decode rest4
                  (Char.ofNat ((b - 0xF0) * 0x40000 + (b1 - 0x80) * 0x1000 +
                      (b2 - 0x80) * 0x40 + (b3 - 0x80)) :: r.1, r.2)
                else
                  let r := utf8Decode (b3 :: rest4)
                  (replChar :: r.1, true)
              | [] => ([replChar], true)
            else
              let r := utf8Decode (b2 :: rest3)
              (replChar :: r.1, true)
          | [] => ([replChar], true)
        else
          let r := utf8Decode (b1 :: rest2)
          (replChar :: r.1, true)
      | [] => ([replChar], true)
    else
      -- invalid lead byte (stray continuation, overlong lead, or > 0xF4)
      let r := utf8Decode rest
      (replChar :: r.1, true)

/-- Rust `String::from_utf8_lossy`. -/
def utf8Lossy (data : List Nat) : List Char := (utf8Decode data).1

/-- `b"%PDF"`. -/
def pdfSig : List Nat := [0x25, 0x50, 0x44, 0x46]

/-- The PNG signature `89 50 4E 47 0D 0A 1A 0A`. -/
def pngSig : List Nat := [0x89, 0x50, 0x4E, 0x47, 0x0D, 0x0A, 0x1A, 0x0A]

/-- The JPEG start-of-image marker `FF D8 FF`. -/
def jpegSig : List Nat := [0xFF, 0xD8, 0xFF]

/-- `b"BM"`. -/
def bmpSig : List Nat := [0x42, 0x4D]

/-- `b"II\x2A\x00"` (little-endian TIFF byte-order mark). -/
def tiffLeSig : List Nat := [0x49, 0x49, 0x2A, 0x00]

/-- `b"MM\x00\x2A"` (big-endian TIFF byte-order mark). -/
def tiffBeSig : List Nat := [0x4D, 0x4D, 0x00, 0x2A]

/-- The OLE compound document header `D0 CF 11 E0`. -/
def oleSig : List Nat := [0xD0, 0xCF, 0x11, 0xE0]

/-- `b"PK"` (ZIP local-file signature). -/
def zipSig : List Nat := [0x50, 0x4B]

/-- The lossy string of the first `min(2000, len)` bytes that
`FormatDetector::detect_office_format` inspects. -/
def officeScan (data : List Nat) : List Char :=
  utf8Lossy (data.take (min 2000 data.length))

/-- `FormatDetector::detect_office_format`: disambiguate an Office
format inside ZIP data by directory-name markers in the first 2KB. -/
def detect_office_format (data : List Nat) : FileFormat :=
  let content := officeScan data
  if strContains content "word/".toList || strContains content "word/_rels".toList then
    FileFormat.docx
  else if strContains content "xl/".toList || strContains content "xl/_rels".toList then
    FileFormat.xlsx
  else if strContains content "ppt/".toList || strContains content "ppt/_rels".toList then
    FileFormat.pptx
  else
    -- Default to XLSX for generic ZIP (most common Office format)
    FileFormat.xlsx

/-- `FormatDetector::detect_from_content`: classify by magic bytes, in
the fixed source order. -/
def detect_from_content (data : List Nat) : FileFormat :=
  if data.isEmpty then FileFormat.text -- Empty files are treated as text
  else if 4 ≤ data.length ∧ byteStartsWith data pdfSig then FileFormat.pdf
  else if 8 ≤ data.length ∧ byteStartsWith data pngSig then FileFormat.png
  else if 3 ≤ data.length ∧ byteStartsWith data jpegSig then FileFormat.jpeg
  else if 2 ≤ data.length ∧ byteStartsWith data bmpSig then FileFormat.bmp
  else if 4 ≤ data.length ∧ (byteStartsWith data tiffLeSig || byteStartsWith data tiffBeSig) then
    FileFormat.tiff
  else if 4 ≤ data.length ∧ byteStartsWith data oleSig then
    FileFormat.xls -- Old Office format, usually Excel
  else if 2 ≤ data.length ∧ byteStartsWith data zipSig then
    detect_office_format data
  else if 5 ≤ data.length ∧
      (let start := utf8Lossy (data.take (min 5 data.length))
       strStartsWith start "<?xml".toList || strStartsWith start "<!".toList) then
    FileFormat.xml
  else if 14 ≤ data.length ∧
      (let start := lowerStr (utf8Lossy (data.take (min 14 data.length)))
       strContains start "<!doctype".toList || strContains start "<html".toList) then
    FileFormat.html
  else
    -- b" \t\n\r" is [32, 9, 10, 13]
    match data.find? (fun b => !([32, 9, 10, 13].contains b)) with
    | some first_non_ws =>
        if first_non_ws == 123 || first_non_ws == 91 then FileFormat.json else FileFormat.text
    | none => FileFormat.text

/-- The final path component (Rust `Path::file_name` on a Unix path):
the last non-empty, non-`.` component; a trailing `..` has no file
name. -/
def pathFileName (path : List Char) : Option (List Char) :=
  let comps := (path.splitOn '/').filter (fun c => !c.isEmpty && c != ['.'])
  match comps.getLast? with
  | none => none
  | some last => if last = ['.', '.'] then none else some last

/-- Rust `Path::extension` applied to the file name: the portion after
the final `.`, unless there is no `.` or the name begins with its only
`.`. -/
def extOf (name : List Char) : Option (List Char) :=
  let rev := name.reverse
  let revExt := rev.takeWhile (fun c => c != '.')
  match rev.dropWhile (fun c => c != '.') with
  | [] => none -- no dot in the file name
  | _ :: revStem =>
      -- head is the final dot; an empty stem means the name begins with its only dot
      if revStem.isEmpty then none else some revExt.reverse

/-- `FormatDetector::detect_from_extension`: lowercase the final path
extension and look it up in the fixed table. -/
def detect_from_extension (filename : List Char) : FileFormat :=
  match (pathFileName filename).bind extOf with
  | none => FileFormat.unknown
  | some e =>
    let ext := lowerStr e
    if ext = "pdf".toList then FileFormat.pdf
    else if ext = "docx".toList then FileFormat.docx
    else if ext = "xlsx".toList then FileFormat.xlsx
    else if ext = "xls".toList then FileFormat.xls
    else if ext = "pptx".toList then FileFormat.pptx
    else if ext = "png".toList then FileFormat.png
    else if ext = "jpg".toList ∨ ext = "jpeg".toList then FileFormat.jpeg
    else if ext = "tiff".toList ∨ ext = "tif".toList then FileFormat.tiff
    else if ext = "bmp".toList then FileFormat.bmp
    else if ext = "json".toList then FileFormat.json
    else if ext = "xml".toList then FileFormat.xml
    else if ext = "html".toList ∨ ext = "htm".toList then FileFormat.html
    else if ext = "txt".toList ∨ ext = "text".toList ∨ ext = "md".toList ∨
        ext = "markdown".toList ∨ ext = "csv".toList then FileFormat.text
    else FileFormat.unknown

/-- `FormatDetector::detect`: combine content and extension evidence,
mirroring the source's early returns. -/
def detect (filename : Option (List Char)) (content : Option (List Nat)) : FileFormat :=
  match content with
  | some data =>
    -- First try content-based detection if content is provided
    let format := detect_from_content data
    if ¬ (format = FileFormat.text ∨ format = FileFormat.unknown) then format
    else
      -- Fall back to extension-based detection
      match filename with
      | some name =>
        let ext_format := detect_from_extension name
        if ext_format ≠ FileFormat.unknown then ext_format
        -- If content detection returned Text and no extension match, return Text
        else if detect_from_content data = FileFormat.text then FileFormat.text
        else FileFormat.unknown
      | none =>
        if detect_from_content data = FileFormat.text then FileFormat.text
        else FileFormat.unknown
  | none =>
    match filename with
    | some name =>
      let ext_format := detect_from_extension name
      if ext_format ≠ FileFormat.unknown then ext_format
      else FileFormat.unknown
    | none => FileFormat.unknown

/-- The windows-1252 mapping of one byte (the WHATWG single-byte index
used by `encoding_rs::WINDOWS_1252`): bytes `0x80..=0x9F` map to the
listed code points, every other byte to the identical code point. -/
def win1252Char (b : Nat) : Char :=
  match b with
  | 0x80 => Char.ofNat 0x20AC
  | 0x82 => Char.ofNat 0x201A
  | 0x83 => Char.ofNat 0x0192
  | 0x84 => Char.ofNat 0x201E
  | 0x85 => Char.ofNat 0x2026
  | 0x86 => Char.ofNat 0x2020
  | 0x87 => Char.ofNat 0x2021
  | 0x88 => Char.ofNat 0x02C6
  | 0x89 => Char.ofNat 0x2030
  | 0x8A => Char.ofNat 0x0160
  | 0x8B => Char.ofNat 0x2039
  | 0x8C => Char.ofNat 0x0152
  | 0x8E => Char.ofNat 0x017D
  | 0x91 => Char.ofNat 0x2018
  | 0x92 => Char.ofNat 0x2019
  | 0x93 => Char.ofNat 0x201C
  | 0x94 => Char.ofNat 0x201D
  | 0x95 => Char.ofNat 0x2022
  | 0x96 => Char.ofNat 0x2013
  | 0x97 => Char.ofNat 0x2014
  | 0x98 => Char.ofNat 0x02DC
  | 0x99 => Char.ofNat 0x2122
  | 0x9A => Char.ofNat 0x0161
  | 0x9B => Char.ofNat 0x203A
  | 0x9C => Char.ofNat 0x0153
  | 0x9E => Char.ofNat 0x017E
  | 0x9F => Char.ofNat 0x0178
  | b => Char.ofNat b

/-- windows-1252 decoding: every byte maps to exactly one character, so
no input is ever malformed. -/
def win1252Decode (data : List Nat) : List Char × Bool := (data.map win1252Char, false)

/-- UTF-16 little-endian decoding with U+FFFD replacement of unpaired
surrogates and of an odd trailing byte (the WHATWG utf-16le decoder). -/
def utf16leDecode : List Nat → List Char × Bool
  | [] => ([], false)
  | [_] => ([replChar], true) -- odd trailing byte
  | b0 :: b1 :: rest =>
    let u := b1 * 0x100 + b0
    if 0xD800 ≤ u ∧ u ≤ 0xDBFF then
      match rest with
      | b2 :: b3 :: rest2 =>
        let u2 := b3 * 0x100 + b2
        if 0xDC00 ≤ u2 ∧ u2 ≤ 0xDFFF then
          let r := utf16leDecode rest2
          (Char.ofNat (0x10000 + (u - 0xD800) * 0x400 + (u2 - 0xDC00)) :: r.1, r.2)
        else
          -- unpaired high surrogate: replace it and reprocess the next unit
          let r := utf16leDecode (b2 :: b3 :: rest2)
          (replChar :: r.1, true)
      | [_] =>
        -- a pending high surrogate and a pending stray byte are cleared
        -- together by a single error at end of stream
        ([replChar], true)
      | [] => ([replChar], true)
    else if 0xDC00 ≤ u ∧ u ≤ 0xDFFF then
      -- unpaired low surrogate
      let r := utf16leDecode rest
      (replChar :: r.1, true)
    else
      let r := utf16leDecode rest
      (Char.ofNat u :: r.1, r.2)

/-- UTF-16 big-endian decoding, as `utf16leDecode` with the byte order
of each unit swapped. -/
def utf16beDecode : List Nat → List Char × Bool
  | [] => ([], false)
  | [_] => ([replChar], true) -- odd trailing byte
  | b0 :: b1 :: rest =>
    let u := b0 * 0x100 + b1
    if 0xD800 ≤ u ∧ u ≤ 0xDBFF then
      match rest with
      | b2 :: b3 :: rest2 =>
        let u2 := b2 * 0x100 + b3
        if 0xDC00 ≤ u2 ∧ u2 ≤ 0xDFFF then
          let r := utf16beDecode rest2
          (Char.ofNat (0x10000 + (u - 0xD800) * 0x400 + (u2 - 0xDC00)) :: r.1, r.2)
        else
          let r := utf16beDecode (b2 :: b3 :: rest2)
          (replChar :: r.1, true)
      | [_] =>
        -- a pending high surrogate and a pending stray byte are cleared
        -- together by a single error at end of stream
        ([replChar], true)
      | [] => ([replChar], true)
    else if 0xDC00 ≤ u ∧ u ≤ 0xDFFF then
      let r := utf16beDecode rest
      (replChar :: r.1, true)
    else
      let r := utf16beDecode rest
      (Char.ofNat u :: r.1, r.2)

/-- The encodings that can result from BOM sniffing in
`encoding_rs::Encoding::decode`. -/
inductive EncodingId where
  | utf8
  | utf16le
  | utf16be
  | windows1252
deriving DecidableEq

/-- `encoding_rs::Encoding::decode` (the WHATWG `decode` algorithm):
BOM sniffing first — a UTF-8 BOM is stripped and the rest decoded as
UTF-8, a UTF-16 BOM switches to the corresponding UTF-16 decoder —
otherwise the fallback encoding decodes the whole buffer.  Returns the
decoded text, the encoding actually used, and the malformed flag. -/
def decodeWithBomSniffing (fallback : EncodingId) (data : List Nat) :
    List Char × EncodingId × Bool :=
  if byteStartsWith data [0xEF, 0xBB, 0xBF] then
    let r := utf8Decode (data.drop 3)
    (r.1, EncodingId.utf8, r.2)
  else if byteStartsWith data [0xFE, 0xFF] then
    let r := utf16beDecode (data.drop 2)
    (r.1, EncodingId.utf16be, r.2)
  else if byteStartsWith data [0xFF, 0xFE] then
    let r := utf16leDecode (data.drop 2)
    (r.1, EncodingId.utf16le, r.2)
  else
    match fallback with
    | EncodingId.utf8 => let r := utf8Decode data; (r.1, EncodingId.utf8, r.2)
    | EncodingId.utf16le => let r := utf16leDecode data; (r.1, EncodingId.utf16le, r.2)
    | EncodingId.utf16be => let r := utf16beDecode data; (r.1, EncodingId.utf16be, r.2)
    | EncodingId.windows1252 => let r := win1252Decode data; (r.1, EncodingId.windows1252, r.2)

/-- The error taxonomy of the dispatcher (§7 of the design): the
errors raised by `parser.rs` at its decision points. -/
inductive ErrorKind where
  | sizeLimitExceeded (actual limit : Nat)
  | emptyInput
  | ioFailure
  | decodeFailure (format : FileFormat)
deriving DecidableEq

deriving instance DecidableEq for Except

/-- `ParserConfig` from `parser.rs`. -/
structure ParserConfig where
  strict_mode : Bool
  max_depth : Nat
  encoding : String
  max_size : Nat

/-- `ParserConfig::default`. -/
def ParserConfig.default : ParserConfig :=
  { strict_mode := false
    max_depth := 100
    encoding := "UTF-8"
    max_size := 100 * 1024 * 1024 } -- 100MB default limit

/-- The default configuration with `strict_mode` switched on. -/
def strictConfig : ParserConfig :=
  { ParserConfig.default with strict_mode := true }

/-- A configuration with a tiny 2-byte size ceiling, used to
instantiate universally quantified statements at concrete inputs. -/
def smallConfig : ParserConfig :=
  { ParserConfig.default with max_size := 2 }

/-- The external decoding capabilities invoked (not implemented) by the
dispatcher: PDF, DOCX, PPTX, Excel, JSON, XML and OCR handlers. -/
structure Capabilities where
  parsePdf : List Nat → Except ErrorKind (List Char)
  parseDocx : List Nat → Except ErrorKind (List Char)
  parsePptx : List Nat → Except ErrorKind (List Char)
  parseXlsxCap : List Nat → Except ErrorKind (List Char)
  parseJson : List Nat → Except ErrorKind (List Char)
  parseXml : List Nat → Except ErrorKind (List Char)
  ocrImage : List Nat → Except ErrorKind (List Char)

/-- A trivial instantiation of the external capabilities, used to
instantiate universally quantified statements at concrete inputs. -/
def stubCaps : Capabilities :=
  { parsePdf := fun _ => Except.ok []
    parseDocx := fun _ => Except.ok []
    parsePptx := fun _ => Except.ok []
    parseXlsxCap := fun _ => Except.ok []
    parseJson := fun _ => Except.ok []
    parseXml := fun _ => Except.ok []
    ocrImage := fun _ => Except.ok [] }

/-- `Parser::parse_text`: strict UTF-8 decode (with BOM sniffing, as
`encoding_rs` does); if malformed sequences were reported, redecode
with windows-1252 (again with BOM sniffing) and return that result. -/
def parse_text (data : List Nat) : Except ErrorKind (List Char) :=
  -- Detect encoding
  let r := decodeWithBomSniffing EncodingId.utf8 data
  if r.2.2 then
    -- Try other encodings
    let r2 := decodeWithBomSniffing EncodingId.windows1252 data
    Except.ok r2.1
  else
    Except.ok r.1

/-- Does the buffer begin with one of the byte-order marks that
`encoding_rs` sniffs (UTF-8, UTF-16BE or UTF-16LE)? -/
def hasBom (data : List Nat) : Bool :=
  byteStartsWith data [0xEF, 0xBB, 0xBF] || byteStartsWith data [0xFE, 0xFF] ||
    byteStartsWith data [0xFF, 0xFE]

/-- `Parser::dispatch_to_parser` (renamed here): route a classified format to its
decoding capability; `Text` and `Unknown` go to `parse_text`. -/
def dispatchToDecoder (caps : Capabilities) (format : FileFormat) (data : List Nat) :
    Except ErrorKind (List Char) :=
  match format with
  | FileFormat.pdf => caps.parsePdf data
  | FileFormat.docx => caps.parseDocx data
  | FileFormat.pptx => caps.parsePptx data
  | FileFormat.xlsx | FileFormat.xls => caps.parseXlsxCap data
  | FileFormat.json => caps.parseJson data
  | FileFormat.xml | FileFormat.html => caps.parseXml data
  | FileFormat.png | FileFormat.jpeg | FileFormat.tiff | FileFormat.bmp => caps.ocrImage data
  | FileFormat.text | FileFormat.unknown => parse_text data

/-- `Parser::parse_bytes_internal`: size check first, then detection,
then dispatch. -/
def parse_bytes_internal (caps : Capabilities) (config : ParserConfig) (data : List Nat)
    (filename : Option (List Char)) : Except ErrorKind (List Char) :=
  -- Check size limit
  if data.length > config.max_size then
    Except.error (ErrorKind.sizeLimitExceeded data.length config.max_size)
  else
    -- Use centralized format detection, then centralized dispatch
    dispatchToDecoder caps (detect filename (some data)) data

/-- `Parser::parse_bytes` (the instance method exposed to Ruby): reject
empty data, then delegate to `parse_bytes_internal` with no filename. -/
def Parser.parse_bytes (caps : Capabilities) (config : ParserConfig) (data : List Nat) :
    Except ErrorKind (List Char) :=
  if data.isEmpty then
    Except.error ErrorKind.emptyInput -- "Data cannot be empty"
  else
    parse_bytes_internal caps config data none

/-- `parse_bytes_direct` (the module-level convenience function): a
default-configured parser's `parse_bytes_internal` with no filename and
no empty-data check. -/
def parse_bytes_direct (caps : Capabilities) (data : List Nat) : Except ErrorKind (List Char) :=
  parse_bytes_internal caps ParserConfig.default data none

/-- `Parser::detect_format_from_bytes`: content classification reported
as a tag string, with `Xls` deliberately reported as `"xlsx"`. -/
def detect_format_from_bytes (data : List Nat) : String :=
  let format := detect_from_content data
  -- For compatibility with Ruby tests, return "xlsx" for old Excel
  match format with
  | FileFormat.xls => "xlsx"
  | f => f.to_symbol

/-- Rust `char::is_whitespace`: the Unicode `White_Space` code
points. -/
def isRustWhitespace (c : Char) : Bool :=
  [0x09, 0x0A, 0x0B, 0x0C, 0x0D, 0x20, 0x85, 0xA0, 0x1680,
   0x2000, 0x2001, 0x2002, 0x2003, 0x2004, 0x2005, 0x2006, 0x2007, 0x2008, 0x2009, 0x200A,
   0x2028, 0x2029, 0x202F, 0x205F, 0x3000].contains c.toNat

/-- Rust `str::trim`: remove leading and trailing whitespace. -/
def rustTrim (s : List Char) : List Char :=
  ((s.dropWhile isRustWhitespace).reverse.dropWhile isRustWhitespace).reverse

/-- `Parser::parse` (string input, `parse_string` in the design):
reject the empty string, otherwise trim, appending the strict-mode
marker `" strict=true"` when configured. -/
def Parser.parse (config : ParserConfig) (input : List Char) : Except ErrorKind (List Char) :=
  if input.isEmpty then
    Except.error ErrorKind.emptyInput -- "Input cannot be empty"
  else if config.strict_mode then
    -- format!("{} strict=true", input.trim())
    Except.ok (rustTrim input ++ " strict=true".toList)
  else
    Except.ok (rustTrim input)

/-! ## Helper lemmas -/

lemma byteStartsWith_append (sig rest : List Nat) : byteStartsWith (sig ++ rest) sig = true := by
  induction sig with
  | nil => simp [byteStartsWith]
  | cons a t ih => simp [byteStartsWith, ih]

lemma strStartsWith_of_append (h p s : List Char)
    (hps : strStartsWith h (p ++ s) = true) : strStartsWith h p = true := by
  induction p generalizing h with
  | nil => simp [strStartsWith]
  | cons a t ih =>
    cases h with
    | nil => simp [strStartsWith] at hps
    | cons x xs =>
      simp only [List.cons_append, strStartsWith, Bool.and_eq_true] at hps ⊢
      exact ⟨hps.1, ih xs hps.2⟩

lemma strContains_of_append (c p s : List Char)
    (hps : strContains c (p ++ s) = true) : strContains c p = true := by
  induction c with
  | nil =>
    simp only [strContains, List.isEmpty_eq_true, List.append_eq_nil] at hps ⊢
    exact hps.1
  | cons x xs ih =>
    simp only [strContains, Bool.or_eq_true] at hps ⊢
    rcases hps with h | h
    · exact Or.inl (strStartsWith_of_append _ _ _ h)
    · exact Or.inr (ih h)

lemma dfc_pdf (rest : List Nat) : detect_from_content (pdfSig ++ rest) = FileFormat.pdf := by
  simp [detect_from_content, pdfSig, byteStartsWith, Nat.le_add_left, Nat.le_add_right]

lemma dfc_png (rest : List Nat) : detect_from_content (pngSig ++ rest) = FileFormat.png := by
  simp [detect_from_content, pngSig, byteStartsWith, Nat.le_add_left, Nat.le_add_right]

lemma dfc_jpeg (rest : List Nat) : detect_from_content (jpegSig ++ rest) = FileFormat.jpeg := by
  simp [detect_from_content, jpegSig, byteStartsWith, Nat.le_add_left, Nat.le_add_right]

lemma dfc_bmp (rest : List Nat) : detect_from_content (bmpSig ++ rest) = FileFormat.bmp := by
  simp [detect_from_content, bmpSig, byteStartsWith, Nat.le_add_left, Nat.le_add_right]

lemma dfc_tiff_le (rest : List Nat) : detect_from_content (tiffLeSig ++ rest) = FileFormat.tiff := by
  simp [detect_from_content, tiffLeSig, byteStartsWith, Nat.le_add_left, Nat.le_add_right]

lemma dfc_tiff_be (rest : List Nat) : detect_from_content (tiffBeSig ++ rest) = FileFormat.tiff := by
  simp [detect_from_content, tiffBeSig, byteStartsWith, Nat.le_add_left, Nat.le_add_right]

lemma dfc_ole (rest : List Nat) : detect_from_content (oleSig ++ rest) = FileFormat.xls := by
  simp [detect_from_content, oleSig, byteStartsWith, Nat.le_add_left, Nat.le_add_right]

lemma dfc_zip (rest : List Nat) :
    detect_from_content (zipSig ++ rest) = detect_office_format (zipSig ++ rest) := by
  simp [detect_from_content, zipSig, byteStartsWith, Nat.le_add_left, Nat.le_add_right]

lemma dfc_xml_decl (rest : List Nat) :
    detect_from_content ([0x3C, 0x3F, 0x78, 0x6D, 0x6C] ++ rest) = FileFormat.xml := by
  simp [detect_from_content, byteStartsWith, Nat.le_add_left, Nat.le_add_right,
    pdfSig, pngSig, jpegSig, bmpSig, tiffLeSig, tiffBeSig, oleSig, zipSig,
    show strStartsWith (utf8Lossy [0x3C, 0x3F, 0x78, 0x6D, 0x6C]) ['<', '?', 'x', 'm', 'l'] = true
      from by decide]

lemma dfc_bang (rest : List Nat) (h : 3 ≤ rest.length) :
    detect_from_content ([0x3C, 0x21] ++ rest) = FileFormat.xml := by
  obtain ⟨r0, rest0, rfl⟩ : ∃ a t, rest = a :: t := by
    cases rest with
    | nil => simp at h
    | cons a t => exact ⟨a, t, rfl⟩
  obtain ⟨r1, rest1, rfl⟩ : ∃ a t, rest0 = a :: t := by
    cases rest0 with
    | nil => simp at h
    | cons a t => exact ⟨a, t, rfl⟩
  obtain ⟨r2, rest2, rfl⟩ : ∃ a t, rest1 = a :: t := by
    cases rest1 with
    | nil => simp at h
    | cons a t => exact ⟨a, t, rfl⟩
  simp [detect_from_content, byteStartsWith, Nat.le_add_left, Nat.le_add_right,
    pdfSig, pngSig, jpegSig, bmpSig, tiffLeSig, tiffBeSig, oleSig, zipSig,
    utf8Lossy, utf8Decode, strStartsWith,
    show (Char.ofNat 0x3C == '<') = true from by decide,
    show (Char.ofNat 0x21 == '!') = true from by decide,
    show (Char.ofNat 0x21 == '?') = false from by decide]

lemma word_rels_false (data : List Nat)
    (hw : strContains (officeScan data) "word/".toList = false) :
    strContains (officeScan data) "word/_rels".toList = false := by
  cases hb : strContains (officeScan data) "word/_rels".toList with
  | false => rfl
  | true =>
    have h := strContains_of_append (officeScan data) "word/".toList "_rels".toList
    rw [show "word/".toList ++ "_rels".toList = "word/_rels".toList from by decide] at h
    rw [h hb] at hw
    cases hw

lemma xl_rels_false (data : List Nat)
    (hx : strContains (officeScan data) "xl/".toList = false) :
    strContains (officeScan data) "xl/_rels".toList = false := by
  cases hb : strContains (officeScan data) "xl/_rels".toList with
  | false => rfl
  | true =>
    have h := strContains_of_append (officeScan data) "xl/".toList "_rels".toList
    rw [show "xl/".toList ++ "_rels".toList = "xl/_rels".toList from by decide] at h
    rw [h hb] at hx
    cases hx

lemma ppt_rels_false (data : List Nat)
    (hp : strContains (officeScan data) "ppt/".toList = false) :
    strContains (officeScan data) "ppt/_rels".toList = false := by
  cases hb : strContains (officeScan data) "ppt/_rels".toList with
  | false => rfl
  | true =>
    have h := strContains_of_append (officeScan data) "ppt/".toList "_rels".toList
    rw [show "ppt/".toList ++ "_rels".toList = "ppt/_rels".toList from by decide] at h
    rw [h hb] at hp
    cases hp

lemma dof_docx (data : List Nat)
    (h : strContains (officeScan data) "word/".toList = true) :
    detect_office_format data = FileFormat.docx := by
  simp [detect_office_format, officeScan] at h ⊢
  simp [h]

lemma dof_xlsx (data : List Nat)
    (hw : strContains (officeScan data) "word/".toList = false)
    (hx : strContains (officeScan data) "xl/".toList = true) :
    detect_office_format data = FileFormat.xlsx := by
  have hw' : strContains (officeScan data) ['w', 'o', 'r', 'd', '/'] = false := hw
  have hwr' : strContains (officeScan data) ['w', 'o', 'r', 'd', '/', '_', 'r', 'e', 'l', 's'] = false :=
    word_rels_false data hw
  have hx' : strContains (officeScan data) ['x', 'l', '/'] = true := hx
  simp [detect_office_format, hw', hwr', hx']

lemma dof_pptx (data : List Nat)
    (hw : strContains (officeScan data) "word/".toList = false)
    (hx : strContains (officeScan data) "xl/".toList = false)
    (hp : strContains (officeScan data) "ppt/".toList = true) :
    detect_office_format data = FileFormat.pptx := by
  have hw' : strContains (officeScan data) ['w', 'o', 'r', 'd', '/'] = false := hw
  have hwr' : strContains (officeScan data) ['w', 'o', 'r', 'd', '/', '_', 'r', 'e', 'l', 's'] = false :=
    word_rels_false data hw
  have hx' : strContains (officeScan data) ['x', 'l', '/'] = false := hx
  have hxr' : strContains (officeScan data) ['x', 'l', '/', '_', 'r', 'e', 'l', 's'] = false :=
    xl_rels_false data hx
  have hp' : strContains (officeScan data) ['p', 'p', 't', '/'] = true := hp
  simp [detect_office_format, hw', hwr', hx', hxr', hp']

lemma dof_default (data : List Nat)
    (hw : strContains (officeScan data) "word/".toList = false)
    (hx : strContains (officeScan data) "xl/".toList = false)
    (hp : strContains (officeScan data) "ppt/".toList = false) :
    detect_office_format data = FileFormat.xlsx := by
  have hw' : strContains (officeScan data) ['w', 'o', 'r', 'd', '/'] = false := hw
  have hwr' : strContains (officeScan data) ['w', 'o', 'r', 'd', '/', '_', 'r', 'e', 'l', 's'] = false :=
    word_rels_false data hw
  have hx' : strContains (officeScan data) ['x', 'l', '/'] = false := hx
  have hxr' : strContains (officeScan data) ['x', 'l', '/', '_', 'r', 'e', 'l', 's'] = false :=
    xl_rels_false data hx
  have hp' : strContains (officeScan data) ['p', 'p', 't', '/'] = false := hp
  have hpr' : strContains (officeScan data) ['p', 'p', 't', '/', '_', 'r', 'e', 'l', 's'] = false :=
    ppt_rels_false data hp
  simp [detect_office_format, hw', hwr', hx', hxr', hp', hpr']

/-! ## Claim theorems -/

/-- C7: the canonical boundary tag mapping sends every `FileFormat`
variant to its lowercase name, except that `Html` maps to `"xml"`. -/
theorem c7_tag_mapping :
    FileFormat.pdf.to_symbol = "pdf" ∧
    FileFormat.docx.to_symbol = "docx" ∧
    FileFormat.xlsx.to_symbol = "xlsx" ∧
    FileFormat.xls.to_symbol = "xls" ∧
    FileFormat.pptx.to_symbol = "pptx" ∧
    FileFormat.png.to_symbol = "png" ∧
    FileFormat.jpeg.to_symbol = "jpeg" ∧
    FileFormat.tiff.to_symbol = "tiff" ∧
    FileFormat.bmp.to_symbol = "bmp" ∧
    FileFormat.json.to_symbol = "json" ∧
    FileFormat.xml.to_symbol = "xml" ∧
    FileFormat.text.to_symbol = "text" ∧
    FileFormat.unknown.to_symbol = "unknown" ∧
    FileFormat.html.to_symbol = "xml" := by decide

/-- C5: `detect` is total — every input yields exactly one format — and
the empty buffer classifies as `Text`, both through `detect_from_content`
and through `detect` with no filename. -/
theorem c5_detect_total :
    detect_from_content [] = FileFormat.text ∧
    detect none (some []) = FileFormat.text ∧
    (∀ filename content, ∃ f : FileFormat, detect filename content = f) :=
  ⟨by decide, by decide, fun filename content => ⟨detect filename content, rfl⟩⟩

/-- C3: `parse_bytes_internal` fails with `sizeLimitExceeded (actual,
limit)` whenever the buffer is longer than `max_size`, for every
capability record (so no decoding work can influence the result); the
default limit is 104857600 bytes and a 105906176-byte buffer fails with
exactly those two values. -/
theorem c3_size_limit :
    (∀ caps config data filename, data.length > config.max_size →
        parse_bytes_internal caps config data filename =
          Except.error (ErrorKind.sizeLimitExceeded data.length config.max_size)) ∧
    ParserConfig.default.max_size = 104857600 ∧
    (∀ caps, parse_bytes_internal caps ParserConfig.default (List.replicate 105906176 0) none =
        Except.error (ErrorKind.sizeLimitExceeded 105906176 104857600)) := by
  refine ⟨fun caps config data filename h => ?_, by decide, fun caps => ?_⟩
  · simp [parse_bytes_internal, h]
  · have h : (List.replicate 105906176 (0 : Nat)).length > ParserConfig.default.max_size := by
      rw [List.length_replicate]
      decide
    rw [parse_bytes_internal, if_pos h, List.length_replicate]
    rfl

/-- Witness for C3: a 3-byte buffer against a 2-byte limit. -/
theorem c3_size_limit_witness :
    parse_bytes_internal stubCaps smallConfig [0, 0, 0] none =
      Except.error (ErrorKind.sizeLimitExceeded 3 2) :=
  c3_size_limit.1 stubCaps smallConfig [0, 0, 0] none (by decide)

/-- C9: `Parser::parse` on a string fails with the empty-input error
exactly when the input is empty; otherwise it returns the trimmed
input, with the `" strict=true"` marker appended when strict mode is
on. -/
theorem c9_parse_string :
    (∀ config input,
        Parser.parse config input = Except.error ErrorKind.emptyInput ↔ input = []) ∧
    (∀ config input, input ≠ [] → config.strict_mode = false →
        Parser.parse config input = Except.ok (rustTrim input)) ∧
    (∀ config input, input ≠ [] → config.strict_mode = true →
        Parser.parse config input = Except.ok (rustTrim input ++ " strict=true".toList)) ∧
    Parser.parse ParserConfig.default "  hi  ".toList = Except.ok "hi".toList := by
  refine ⟨fun config input => ?_, fun config input h hs => ?_, fun config input h hs => ?_,
    by decide⟩
  · constructor
    · intro h
      by_contra hne
      have he : input.isEmpty = false := by
        cases input with
        | nil => exact absurd rfl hne
        | cons a t => rfl
      rw [Parser.parse, he] at h
      cases hs : config.strict_mode <;> simp [hs] at h
    · intro h
      subst h
      rfl
  · have he : input.isEmpty = false := by
      cases input with
      | nil => exact absurd rfl h
      | cons a t => rfl
    rw [Parser.parse, he, hs]
    rfl
  · have he : input.isEmpty = false := by
      cases input with
      | nil => exact absurd rfl h
      | cons a t => rfl
    rw [Parser.parse, he, hs]
    rfl

/-- Witness for C9: the concrete behaviors on `""` and `"  hi  "`. -/
theorem c9_parse_string_witness :
    Parser.parse ParserConfig.default [] = Except.error ErrorKind.emptyInput ∧
    Parser.parse ParserConfig.default "  hi  ".toList = Except.ok "hi".toList ∧
    Parser.parse strictConfig "  hi  ".toList = Except.ok "hi strict=true".toList :=
  ⟨(c9_parse_string.1 ParserConfig.default []).2 rfl,
   c9_parse_string.2.1 ParserConfig.default "  hi  ".toList (by decide) rfl,
   by
     have h := c9_parse_string.2.2.1 strictConfig "  hi  ".toList (by decide) rfl
     rw [h]
     decide⟩

/-- C10: `detect_format_from_bytes` reports `"xlsx"` whenever content
classification yields `Xls` (e.g. any OLE-prefixed buffer), reports the
canonical tag for every other classification, and never reports
`"xls"`. -/
theorem c10_xls_tag_remap :
    (∀ data, detect_from_content data = FileFormat.xls →
        detect_format_from_bytes data = "xlsx") ∧
    (∀ data, detect_from_content data ≠ FileFormat.xls →
        detect_format_from_bytes data = (detect_from_content data).to_symbol) ∧
    (∀ data, detect_format_from_bytes data ≠ "xls") ∧
    (∀ rest, detect_format_from_bytes (oleSig ++ rest) = "xlsx") := by
  refine ⟨fun data h => ?_, fun data h => ?_, fun data => ?_, fun rest => ?_⟩
  · simp [detect_format_from_bytes, h]
  · cases hf : detect_from_content data <;>
      first
      | exact absurd hf h
      | simp [detect_format_from_bytes, hf, FileFormat.to_symbol]
  · cases hf : detect_from_content data <;>
      simp [detect_format_from_bytes, hf, FileFormat.to_symbol]
  · simp [detect_format_from_bytes, dfc_ole]

/-- Witness for C10: the OLE header reports `"xlsx"`; an empty buffer
reports the canonical `"text"` tag. -/
theorem c10_xls_tag_remap_witness :
    detect_format_from_bytes [0xD0, 0xCF, 0x11, 0xE0] = "xlsx" ∧
    detect_format_from_bytes [] = "text" :=
  ⟨c10_xls_tag_remap.1 [0xD0, 0xCF, 0x11, 0xE0] (by decide),
   by
     have h := c10_xls_tag_remap.2.1 [] (by decide)
     rw [h]
     decide⟩

/-- C2: every fixed prefix signature in `detect_from_content` — `%PDF`,
the PNG signature, the JPEG SOI, `BM`, both TIFF byte-order marks, the
OLE header, and a first-five-byte prefix of `<?xml` or `<!` — forces
the corresponding format regardless of all trailing bytes; in
particular a buffer beginning `<!doctype` classifies as `Xml`. -/
theorem c2_magic_signatures :
    (∀ rest, detect_from_content (pdfSig ++ rest) = FileFormat.pdf) ∧
    (∀ rest, detect_from_content (pngSig ++ rest) = FileFormat.png) ∧
    (∀ rest, detect_from_content (jpegSig ++ rest) = FileFormat.jpeg) ∧
    (∀ rest, detect_from_content (bmpSig ++ rest) = FileFormat.bmp) ∧
    (∀ rest, detect_from_content (tiffLeSig ++ rest) = FileFormat.tiff) ∧
    (∀ rest, detect_from_content (tiffBeSig ++ rest) = FileFormat.tiff) ∧
    (∀ rest, detect_from_content (oleSig ++ rest) = FileFormat.xls) ∧
    (∀ rest, detect_from_content ([0x3C, 0x3F, 0x78, 0x6D, 0x6C] ++ rest) = FileFormat.xml) ∧
    (∀ rest, 3 ≤ rest.length → detect_from_content ([0x3C, 0x21] ++ rest) = FileFormat.xml) ∧
    (∀ rest,
        detect_from_content ([0x3C, 0x21, 0x64, 0x6F, 0x63, 0x74, 0x79, 0x70, 0x65] ++ rest) =
          FileFormat.xml) := by
  refine ⟨dfc_pdf, dfc_png, dfc_jpeg, dfc_bmp, dfc_tiff_le, dfc_tiff_be, dfc_ole,
    dfc_xml_decl, dfc_bang, fun rest => ?_⟩
  have h := dfc_bang ([0x64, 0x6F, 0x63, 0x74, 0x79, 0x70, 0x65] ++ rest)
    (by simp [List.length_append])
  simpa using h

/-- Witness for C2: the `<!`-prefix branch at concrete trailing
bytes. -/
theorem c2_magic_signatures_witness :
    detect_from_content ([0x3C, 0x21] ++ [0x64, 0x6F, 0x63]) = FileFormat.xml :=
  c2_magic_signatures.2.2.2.2.2.2.2.2.1 [0x64, 0x6F, 0x63] (by decide)

/-- C4 counterexample: the claim omits the `xl/` test that the code
runs before the `ppt/` test.  The ZIP buffer `"PKxl/ppt/"` contains
`"ppt/"` and not `"word/"` in its first 2000 bytes, so the claim
predicts `Pptx`, but `detect_from_content` yields `Xlsx` because the
`xl/` branch matches first. -/
theorem c4_counterexample :
    byteStartsWith [0x50, 0x4B, 0x78, 0x6C, 0x2F, 0x70, 0x70, 0x74, 0x2F] zipSig = true ∧
    strContains (officeScan [0x50, 0x4B, 0x78, 0x6C, 0x2F, 0x70, 0x70, 0x74, 0x2F])
      "word/".toList = false ∧
    strContains (officeScan [0x50, 0x4B, 0x78, 0x6C, 0x2F, 0x70, 0x70, 0x74, 0x2F])
      "ppt/".toList = true ∧
    detect_from_content [0x50, 0x4B, 0x78, 0x6C, 0x2F, 0x70, 0x70, 0x74, 0x2F] =
      FileFormat.xlsx ∧
    FileFormat.xlsx ≠ FileFormat.pptx := by decide

/-- C4 (amended): every `PK`-prefixed buffer delegates to
`detect_office_format` over the lossy string of the first
`min(2000, length)` bytes, which tests `"word/"` (→ `Docx`), then
`"xl/"` (→ `Xlsx`), then `"ppt/"` (→ `Pptx`), and defaults to
`Xlsx`. -/
theorem c4_office_disambiguation :
    (∀ rest, detect_from_content (zipSig ++ rest) = detect_office_format (zipSig ++ rest)) ∧
    (∀ data, strContains (officeScan data) "word/".toList = true →
        detect_office_format data = FileFormat.docx) ∧
    (∀ data, strContains (officeScan data) "word/".toList = false →
        strContains (officeScan data) "xl/".toList = true →
        detect_office_format data = FileFormat.xlsx) ∧
    (∀ data, strContains (officeScan data) "word/".toList = false →
        strContains (officeScan data) "xl/".toList = false →
        strContains (officeScan data) "ppt/".toList = true →
        detect_office_format data = FileFormat.pptx) ∧
    (∀ data, strContains (officeScan data) "word/".toList = false →
        strContains (officeScan data) "xl/".toList = false →
        strContains (officeScan data) "ppt/".toList = false →
        detect_office_format data = FileFormat.xlsx) :=
  ⟨dfc_zip, dof_docx, dof_xlsx, dof_pptx, dof_default⟩

/-- Witness for C4: `"PKword/"` → `Docx`, `"PKppt/"` → `Pptx`, and a
markerless ZIP → the `Xlsx` default. -/
theorem c4_office_disambiguation_witness :
    detect_office_format [0x50, 0x4B, 0x77, 0x6F, 0x72, 0x64, 0x2F] = FileFormat.docx ∧
    detect_office_format [0x50, 0x4B, 0x70, 0x70, 0x74, 0x2F] = FileFormat.pptx ∧
    detect_office_format [0x50, 0x4B, 0x01, 0x02] = FileFormat.xlsx :=
  ⟨c4_office_disambiguation.2.1 [0x50, 0x4B, 0x77, 0x6F, 0x72, 0x64, 0x2F] (by decide),
   c4_office_disambiguation.2.2.2.1 [0x50, 0x4B, 0x70, 0x70, 0x74, 0x2F]
     (by decide) (by decide) (by decide),
   c4_office_disambiguation.2.2.2.2 [0x50, 0x4B, 0x01, 0x02]
     (by decide) (by decide) (by decide)⟩

/-- C6 counterexample: the instance method `Parser::parse_bytes`
rejects the empty buffer with the empty-input argument error instead of
succeeding. -/
theorem c6_counterexample :
    Parser.parse_bytes stubCaps ParserConfig.default [] =
      Except.error ErrorKind.emptyInput := by decide

/-- C6 (amended): the module-level `parse_bytes_direct` on the empty
buffer succeeds with the empty string — the empty buffer classifies as
`Text` and the text normalizer returns the empty decode — while the
instance method `Parser::parse_bytes` rejects the empty buffer with the
empty-input argument error before any processing. -/
theorem c6_empty_buffer :
    (∀ caps, parse_bytes_direct caps [] = Except.ok []) ∧
    (∀ caps config, Parser.parse_bytes caps config [] = Except.error ErrorKind.emptyInput) ∧
    detect none (some ([] : List Nat)) = FileFormat.text ∧
    parse_text [] = Except.ok [] := by
  refine ⟨fun caps => ?_, fun caps config => rfl, by decide, by decide⟩
  simp [parse_bytes_direct, parse_bytes_internal, ParserConfig.default, dispatchToDecoder,
    show detect none (some ([] : List Nat)) = FileFormat.text from by decide,
    show parse_text [] = Except.ok [] from by decide]

/-- C8 counterexample: `[0xFF, 0xFE]` is malformed as strict UTF-8, so
the claim requires the windows-1252 decoding `"ÿþ"`, but the decoder's
BOM sniffing treats the buffer as a UTF-16LE byte-order mark and
`parse_text` returns the empty string. -/
theorem c8_counterexample :
    (utf8Decode [0xFF, 0xFE]).2 = true ∧
    parse_text [0xFF, 0xFE] = Except.ok [] ∧
    (win1252Decode [0xFF, 0xFE]).1 = [Char.ofNat 0xFF, Char.ofNat 0xFE] ∧
    parse_text [0xFF, 0xFE] ≠ Except.ok (win1252Decode [0xFF, 0xFE]).1 := by decide

/-- C8 (amended): `parse_text` is total; on every buffer that does not
begin with a UTF-8 or UTF-16 byte-order mark it returns the strict
UTF-8 decoding when no malformed sequence is reported and the
windows-1252 decoding otherwise; and BOM-prefixed buffers are instead
redirected by the decoder's BOM sniffing — a UTF-8 BOM is stripped and
the remainder returned as its UTF-8 decoding with replacement, and a
UTF-16 BOM yields the UTF-16 decoding of the remainder with
replacement, the windows-1252 fallback never taking effect because the
redecode sniffs the same BOM. -/
theorem c8_text_normalization :
    (∀ data, ∃ s, parse_text data = Except.ok s) ∧
    (∀ data, hasBom data = false → (utf8Decode data).2 = false →
        parse_text data = Except.ok (utf8Decode data).1) ∧
    (∀ data, hasBom data = false → (utf8Decode data).2 = true →
        parse_text data = Except.ok (win1252Decode data).1) ∧
    (∀ rest, parse_text ([0xEF, 0xBB, 0xBF] ++ rest) = Except.ok (utf8Decode rest).1) ∧
    (∀ rest, parse_text ([0xFE, 0xFF] ++ rest) = Except.ok (utf16beDecode rest).1) ∧
    (∀ rest, parse_text ([0xFF, 0xFE] ++ rest) = Except.ok (utf16leDecode rest).1) := by
  have bomSplit : ∀ data : List Nat, hasBom data = false →
      byteStartsWith data [0xEF, 0xBB, 0xBF] = false ∧
      byteStartsWith data [0xFE, 0xFF] = false ∧
      byteStartsWith data [0xFF, 0xFE] = false := by
    intro data hb
    rw [hasBom] at hb
    refine ⟨?_, ?_, ?_⟩ <;>
      cases h1 : byteStartsWith data [0xEF, 0xBB, 0xBF] <;>
      cases h2 : byteStartsWith data [0xFE, 0xFF] <;>
      cases h3 : byteStartsWith data [0xFF, 0xFE] <;>
      rw [h1, h2, h3] at hb <;> simp_all
  refine ⟨fun data => ?_, fun data hb hm => ?_, fun data hb hm => ?_,
    fun rest => ?_, fun rest => ?_, fun rest => ?_⟩
  · simp only [parse_text]
    split <;> exact ⟨_, rfl⟩
  · obtain ⟨h1, h2, h3⟩ := bomSplit data hb
    simp [parse_text, decodeWithBomSniffing, h1, h2, h3, hm]
  · obtain ⟨h1, h2, h3⟩ := bomSplit data hb
    simp [parse_text, decodeWithBomSniffing, h1, h2, h3, hm]
  · cases h : (utf8Decode rest).2 <;>
      simp [parse_text, decodeWithBomSniffing, byteStartsWith, h]
  · cases h : (utf16beDecode rest).2 <;>
      simp [parse_text, decodeWithBomSniffing, byteStartsWith, h]
  · cases h : (utf16leDecode rest).2 <;>
      simp [parse_text, decodeWithBomSniffing, byteStartsWith, h]

/-- Witness for C8: a well-formed ASCII buffer takes the UTF-8 branch
and a buffer with a stray `0xFF` byte takes the windows-1252 branch. -/
theorem c8_text_normalization_witness :
    parse_text [0x68, 0x69] = Except.ok (utf8Decode [0x68, 0x69]).1 ∧
    parse_text [0x68, 0xFF] = Except.ok (win1252Decode [0x68, 0xFF]).1 :=
  ⟨c8_text_normalization.2.1 [0x68, 0x69] (by decide) (by decide),
   c8_text_normalization.2.2.1 [0x68, 0xFF] (by decide) (by decide)⟩

/-- C1: `detect` follows the four-step priority policy — definitive
content classification wins; otherwise a known extension wins;
otherwise content that sniffed as `Text` yields `Text`; otherwise
`Unknown` — and in particular any `%PDF`-prefixed buffer classifies as
`Pdf` under any filename (including `"note.txt"`), while a
text-sniffing buffer under a recognized extension takes the extension's
format. -/
theorem c1_detect_priority :
    (∀ filename data, detect_from_content data ≠ FileFormat.text →
        detect_from_content data ≠ FileFormat.unknown →
        detect filename (some data) = detect_from_content data) ∧
    (∀ name data,
        (detect_from_content data = FileFormat.text ∨
          detect_from_content data = FileFormat.unknown) →
        detect_from_extension name ≠ FileFormat.unknown →
        detect (some name) (some data) = detect_from_extension name) ∧
    (∀ name, detect_from_extension name ≠ FileFormat.unknown →
        detect (some name) none = detect_from_extension name) ∧
    (∀ data, detect_from_content data = FileFormat.text →
        detect none (some data) = FileFormat.text) ∧
    (∀ name data, detect_from_content data = FileFormat.text →
        detect_from_extension name = FileFormat.unknown →
        detect (some name) (some data) = FileFormat.text) ∧
    detect none none = FileFormat.unknown ∧
    (∀ name, detect_from_extension name = FileFormat.unknown →
        detect (some name) none = FileFormat.unknown) ∧
    (∀ data, detect_from_content data = FileFormat.unknown →
        detect none (some data) = FileFormat.unknown) ∧
    (∀ name data, detect_from_content data = FileFormat.unknown →
        detect_from_extension name = FileFormat.unknown →
        detect (some name) (some data) = FileFormat.unknown) ∧
    (∀ rest name, detect (some name) (some (pdfSig ++ rest)) = FileFormat.pdf) ∧
    (∀ rest, detect (some "note.txt".toList) (some (pdfSig ++ rest)) = FileFormat.pdf) := by
  refine ⟨fun filename data h1 h2 => ?_, fun name data h hd => ?_, fun name hd => ?_,
    fun data h => ?_, fun name data h hext => ?_, rfl, fun name hext => ?_,
    fun data h => ?_, fun name data h hext => ?_, fun rest name => ?_, fun rest => ?_⟩
  · simp [detect, h1, h2]
  · rcases h with h | h <;> simp [detect, h, hd]
  · simp [detect, hd]
  · simp [detect, h]
  · simp [detect, h, hext]
  · simp [detect, hext]
  · simp [detect, h]
  · simp [detect, h, hext]
  · simp [detect, dfc_pdf]
  · simp [detect, dfc_pdf]

/-- Witness for C1: the policy at concrete inputs — PDF magic beats a
`.txt` name, a `.pdf` name beats text-sniffing content, and the
`Text` fallbacks. -/
theorem c1_detect_priority_witness :
    detect (some "note.txt".toList) (some (pdfSig ++ [0x2D])) = FileFormat.pdf ∧
    detect (some "report.pdf".toList) (some [0x68, 0x69]) = FileFormat.pdf ∧
    detect (some "note.txt".toList) none = FileFormat.text ∧
    detect none (some [0x68, 0x69]) = FileFormat.text := by
  refine ⟨c1_detect_priority.2.2.2.2.2.2.2.2.2.2 [0x2D], ?_, ?_, ?_⟩
  · have h := c1_detect_priority.2.1 "report.pdf".toList [0x68, 0x69]
      (Or.inl (by decide)) (by decide)
    rw [h]
    decide
  · have h := c1_detect_priority.2.2.1 "note.txt".toList (by decide)
    rw [h]
    decide
  · exact c1_detect_priority.2.2.2.1 [0x68, 0x69] (by decide)
